import Mathlib

/-!
Verification development for the meeting-location optimizer
(`four-one-api`): connection finder (`data.py`), geographic filter
(`filter.py`), score normalizer and ranker (`helpers/scoringMethod.py`),
and distance estimator (`helpers/haversineMethod.py`).

Clock times (`DEPTIM`, `ARRTIM`) are embedded as integers exactly as the
code casts them (`cast(pl.Int32)`); emissions are embedded as rationals.
A Python function that can raise is embedded with an `Option` result,
`none` standing for the raised exception.
-/
set_option autoImplicit false

/-- One joined schedule+emissions row, as selected and cast by
`get_connecting_flights` in `data.py` (fields not used by any connection
logic — carrier, flight number, date, distance — are carried in `tag`). -/
structure Flight where
  tag : String
  depapt : String
  arrapt : String
  deptim : Int
  arrtim : Int
  co2 : ℚ
deriving Repr, DecidableEq

/-- A connection record as built by `get_connecting_flights`:
first and second leg plus the derived `total_co2_emissions` and
`journey_time_minutes` fields. -/
structure Connection where
  first : Flight
  second : Flight
  total_co2_emissions : ℚ
  journey_time_minutes : Int
deriving Repr, DecidableEq

/-- Python's `str.upper()` on the airport-code arguments (ASCII case map,
character by character), used as `origin.upper()` / `destination.upper()`
in `data.py`. -/
def strUpper (s : String) : String :=
  String.mk (s.data.map Char.toUpper)

/-- The two-line day wrap of `data.py`:
`if journey_time_mins < 0: journey_time_mins += 24 * 60`. -/
def wrapDay (t : Int) : Int :=
  if t < 0 then t + 24 * 60 else t

/-- The Python test
`max_journey_time is not None and journey_time_mins > max_journey_time`. -/
def exceedsMaxJourney (maxJourney : Option Int) (jt : Int) : Bool :=
  match maxJourney with
  | some mj => decide (mj < jt)
  | none => false

/-- The body of the inner `for second in matching_second` loop of
`get_connecting_flights` (data.py): emission filter, journey-time
computation with single day-wrap, optional journey-time filter. -/
def buildConnection (maxJourney : Option Int) (maxEmissions : ℚ)
    (first second : Flight) : Option Connection :=
  if maxEmissions < first.co2 + second.co2 then none
  else if exceedsMaxJourney maxJourney (wrapDay (second.arrtim - first.deptim))
  then none
  else some ⟨first, second, first.co2 + second.co2,
             wrapDay (second.arrtim - first.deptim)⟩

/-- The `matching_second` filter of `get_connecting_flights`: second legs
departing from the first leg's arrival airport with a departure clock time
in `[ARRTIM + min_connection_mins, ARRTIM + max_connection_mins]`.
Note the comparison uses the raw `DEPTIM` value, with no day-wrap. -/
def matchingSecond (first : Flight) (seconds : List Flight)
    (minConn maxConn : Int) : List Flight :=
  seconds.filter fun s =>
    s.depapt == first.arrapt
      && decide (first.arrtim + minConn ≤ s.deptim)
      && decide (s.deptim ≤ first.arrtim + maxConn)

/-- All connections one first leg contributes, in inner-loop order
(filters applied, no limit yet). -/
def validSeconds (minConn maxConn : Int) (maxEmissions : ℚ)
    (maxJourney : Option Int) (seconds : List Flight) (first : Flight) :
    List Connection :=
  (matchingSecond first seconds minConn maxConn).filterMap
    (buildConnection maxJourney maxEmissions first)

/-- Inner loop of `get_connecting_flights`: append accepted connections
one at a time, breaking as soon as `len(connections) >= limit`. -/
def appendUpTo (limit : Nat) (conns : List Connection) :
    List Connection → List Connection
  | [] => conns
  | c :: cs =>
    if limit ≤ (conns ++ [c]).length then conns ++ [c]
    else appendUpTo limit (conns ++ [c]) cs

/-- Outer loop of `get_connecting_flights` over first legs, with the
`len(connections) >= limit` break at the top of each iteration. -/
def outerLoop (limit : Nat) (step : Flight → List Connection) :
    List Flight → List Connection → List Connection
  | [], conns => conns
  | f :: fs, conns =>
    if limit ≤ conns.length then conns
    else outerLoop limit step fs (appendUpTo limit conns (step f))

/-- Function `get_connecting_flights` from `data.py`, embedded from the point where
the joined schedule+emissions rows (`schedule_with_emissions`, in collected
row order) are split into first legs (departing the origin) and second
legs (arriving at the destination) and scanned by the two nested loops. -/
def get_connecting_flights (flights : List Flight) (origin dest : String)
    (minConn maxConn : Int) (limit : Nat) (maxEmissions : ℚ)
    (maxJourney : Option Int) : List Connection :=
  let firsts := flights.filter fun f => f.depapt == strUpper origin
  let seconds := flights.filter fun f => f.arrapt == strUpper dest
  outerLoop limit (validSeconds minConn maxConn maxEmissions maxJourney seconds)
    firsts []

/-- The full valid-connection stream in iteration order (outer loop over
first legs, inner loop over matching second legs), with no limit applied. -/
def validConnections (flights : List Flight) (origin dest : String)
    (minConn maxConn : Int) (maxEmissions : ℚ) (maxJourney : Option Int) :
    List Connection :=
  let firsts := flights.filter fun f => f.depapt == strUpper origin
  let seconds := flights.filter fun f => f.arrapt == strUpper dest
  firsts.flatMap (validSeconds minConn maxConn maxEmissions maxJourney seconds)

/-- Modelled from the spec: a variant of `get_connecting_flights` whose
connection-window filter follows the spec sentence "if a derived value
(journey time, wait time) is negative, add 1440 minutes once": the wait
`DEPTIM - ARRTIM` is wrapped by one day before being compared with the
`[min_connection_mins, max_connection_mins]` window.  Used only to compare
against the code's raw-difference window. -/
def get_connecting_flights_wrapwait (flights : List Flight)
    (origin dest : String) (minConn maxConn : Int) (limit : Nat)
    (maxEmissions : ℚ) (maxJourney : Option Int) : List Connection :=
  let firsts := flights.filter fun f => f.depapt == strUpper origin
  let seconds := flights.filter fun f => f.arrapt == strUpper dest
  let step := fun (first : Flight) =>
    (seconds.filter fun s =>
        s.depapt == first.arrapt
          && decide (minConn ≤ wrapDay (s.deptim - first.arrtim))
          && decide (wrapDay (s.deptim - first.arrtim) ≤ maxConn)).filterMap
      (buildConnection maxJourney maxEmissions first)
  outerLoop limit step firsts []

def legJfkOrd : Flight := ⟨"AA100", "JFK", "ORD", 600, 700, 10⟩

def legOrdLax : Flight := ⟨"UA200", "ORD", "LAX", 760, 900, 20⟩

def connJfkLax : Connection := ⟨legJfkOrd, legOrdLax, 30, 300⟩

def legDelDxb : Flight := ⟨"AI300", "DEL", "DXB", 1380, 100, 5⟩

def legDxbLhr : Flight := ⟨"EK400", "DXB", "LHR", 200, 400, 7⟩

def connDelLhr : Connection := ⟨legDelDxb, legDxbLhr, 12, 460⟩

/-- One metric column of the pandas frame handed to `normalize_results`
(`helpers/scoringMethod.py`): `absent` models a frame without that column,
and a `none` entry models a null/NaN cell of a present column. -/
inductive Column where
  | absent
  | present (vals : List (Option ℚ))
deriving Repr, DecidableEq

/-- pandas `Series.min()` with its default `skipna`: the minimum of the
non-null values (callers pass the list of non-null cells). -/
def listMin : List ℚ → ℚ
  | [] => 0
  | x :: xs => xs.foldl min x

/-- pandas `Series.max()` with its default `skipna`, dually. -/
def listMax : List ℚ → ℚ
  | [] => 0
  | x :: xs => xs.foldl max x

/-- One column block of `normalize_results` (`helpers/scoringMethod.py`):
under `col in df.columns and len(df) > 0 and not df[col].isna().all()`,
compute `np.where(range == 0, 0.0, (df[col] - min) / range)` with
`range = max - min` over the non-null cells (a null cell propagates to a
null normalized cell when `range != 0`, and `np.where` broadcasts the
scalar `0.0` to every row when `range == 0`); otherwise assign `0.0` to
every row.  `nrows` is `len(df)`, used when the column is absent. -/
def normalizeColumn (nrows : Nat) : Column → List (Option ℚ)
  | Column.absent => List.replicate nrows (some 0)
  | Column.present vals =>
    if 0 < vals.length ∧ ¬ vals.all Option.isNone = true then
      if listMax (vals.filterMap id) - listMin (vals.filterMap id) = 0 then
        List.replicate vals.length (some 0)
      else
        vals.map fun v => v.map fun x =>
          (x - listMin (vals.filterMap id))
            / (listMax (vals.filterMap id) - listMin (vals.filterMap id))
    else List.replicate vals.length (some 0)

/-- Function `normalize_results` from `helpers/scoringMethod.py`: the `co2_norm`
and `time_norm` columns computed from `total_co2` and `max_travel_hours`
(all other columns are carried along unchanged and are not modelled). -/
def normalize_results (co2col timecol : Column) (nrows : Nat) :
    List (Option ℚ) × List (Option ℚ) :=
  (normalizeColumn nrows co2col, normalizeColumn nrows timecol)

def legRedeyeOut : Flight := ⟨"QF500", "AAA", "BBB", 1400, 1430, 1⟩

def legRedeyeIn : Flight := ⟨"QF600", "BBB", "CCC", 40, 120, 1⟩

/-- The absolute tolerance `1e-10` of `point_in_polygon` (`filter.py`). -/
def tol : ℚ := 1 / 10 ^ 10

/-- The vertex-coincidence test of `point_in_polygon`:
`abs(x - vx) < tolerance and abs(y - vy) < tolerance`. -/
def nearVertex (x y vx vy : ℚ) : Bool :=
  decide (|x - vx| < tol) && decide (|y - vy| < tol)

/-- The edge-coincidence early return of `point_in_polygon` (`filter.py`):
inside the bounding box of the edge, a non-horizontal edge compares `x`
against the edge line within tolerance (`slope == inf` for a vertical
edge).  A horizontal edge (`p1y == p2y`) performs no edge check. -/
def onEdgeCheck (x y p1x p1y p2x p2y : ℚ) : Bool :=
  if min p1y p2y ≤ y ∧ y ≤ max p1y p2y ∧ min p1x p2x ≤ x ∧ x ≤ max p1x p2x
  then
    if p1y ≠ p2y then
      if p2x = p1x then decide (|x - p1x| < tol)
      else decide (|x - (p1x + (y - p1y) / ((p2y - p1y) / (p2x - p1x)))| < tol)
    else false
  else false

/-- The ray-casting crossing update of `point_in_polygon` (`filter.py`)
(the `xinters` assignment is guarded by `p1y != p2y`, which always holds
when the outer condition does). -/
def crossingUpdate (x y p1x p1y p2x p2y : ℚ) (inside : Bool) : Bool :=
  if min p1y p2y < y ∧ y ≤ max p1y p2y ∧ x ≤ max p1x p2x then
    if p1x = p2x ∨ x ≤ (y - p1y) * (p2x - p1x) / (p2y - p1y) + p1x
    then !inside else inside
  else inside

/-- The edge loop of `point_in_polygon` over the closed edge sequence,
with the early `return True` of the edge-coincidence check. -/
def pipLoop (x y : ℚ) : List ((ℚ × ℚ) × (ℚ × ℚ)) → Bool → Bool
  | [], inside => inside
  | (p1, p2) :: rest, inside =>
    if onEdgeCheck x y p1.1 p1.2 p2.1 p2.2 then true
    else pipLoop x y rest (crossingUpdate x y p1.1 p1.2 p2.1 p2.2 inside)

/-- Function `point_in_polygon` from `filter.py` on a `(lat, lon)` point: the
vertex loop runs first; an empty polygon then raises `IndexError` at
`polygon_vertices[0]` (modelled as `none`); otherwise the edge loop walks
the edges `(v0,v1), ..., (v_last, v0)`. -/
def point_in_polygon (point : ℚ × ℚ) (polygon_vertices : List (ℚ × ℚ)) :
    Option Bool :=
  if polygon_vertices.any fun v => nearVertex point.1 point.2 v.1 v.2 then
    some true
  else
    match polygon_vertices with
    | [] => none
    | _ :: _ =>
      some (pipLoop point.1 point.2
        (polygon_vertices.zip (polygon_vertices.rotate 1)) false)

/-- A candidate-city record as stored in the `candidate_cities` mapping
(`candidates.py` / `filter.py`): display name, country and coordinates. -/
structure City where
  city : String
  country : String
  lat : ℚ
  lon : ℚ
deriving Repr, DecidableEq

/-- Python dict union `{**candidate_cities}` followed by
`.update(custom_cities)`: base insertion order, values overridden by the
update, new keys appended in update order. -/
def dictUpdate (base upd : List (String × City)) : List (String × City) :=
  (base.map fun kv =>
    match upd.find? (fun u => u.1 == kv.1) with
    | some u => (kv.1, u.2)
    | none => kv)
  ++ upd.filter fun u => !(base.any fun b => b.1 == u.1)

/-- The `all_cities` dict of `filter_candidates_by_polygon`: the candidate
mapping, updated with the custom cities when that argument is truthy
(a `None` or empty custom dict leaves the candidates unchanged). -/
def allCities (candidate_cities : List (String × City))
    (custom_cities : Option (List (String × City))) : List (String × City) :=
  match custom_cities with
  | some cs => if cs.isEmpty then candidate_cities
               else dictUpdate candidate_cities cs
  | none => candidate_cities

/-- The dict comprehension of `filter_candidates_by_polygon`, keeping the
entries whose coordinates test inside; an exception from
`point_in_polygon` propagates (`none`). -/
def pipFilter (poly : List (ℚ × ℚ)) :
    List (String × City) → Option (List (String × City))
  | [] => some []
  | kv :: rest =>
    match point_in_polygon (kv.2.lat, kv.2.lon) poly with
    | none => none
    | some b =>
      match pipFilter poly rest with
      | none => none
      | some l => some (if b then kv :: l else l)

/-- Function `filter_candidates_by_polygon` from `filter.py`. -/
def filter_candidates_by_polygon (candidate_cities : List (String × City))
    (polygon_vertices : List (ℚ × ℚ))
    (custom_cities : Option (List (String × City))) :
    Option (List (String × City)) :=
  pipFilter polygon_vertices (allCities candidate_cities custom_cities)

/-- Function `calculate_bounding_polygon` from `filter.py`, parameterized by the
`scipy.spatial.ConvexHull` call it wraps: `hull coords = some vs` models a
successful hull with vertex list `vs`, `none` models the exception caught
by the `try/except` (e.g. collinear input). -/
def calculate_bounding_polygon
    (hull : List (ℚ × ℚ) → Option (List (ℚ × ℚ)))
    (coords : List (ℚ × ℚ)) : List (ℚ × ℚ) :=
  if coords.length < 3 then coords
  else if coords.length = 3 then coords
  else
    match hull coords with
    | some vs => vs
    | none => coords

def cityInside : City := ⟨"Inner", "XX", 1/2, 1/2⟩

def cityOutside : City := ⟨"Outer", "YY", 5, 5⟩

/-- The opaque `math`-library functions used by `helpers/haversineMethod.py`
(`math.radians`, `math.sin`, `math.cos`, `math.sqrt`, `math.atan2`),
abstracted as a parameter of the embedding. -/
structure TrigOps where
  radians : ℚ → ℚ
  sin : ℚ → ℚ
  cos : ℚ → ℚ
  sqrt : ℚ → ℚ
  atan2 : ℚ → ℚ → ℚ

/-- Function `haversine` from `helpers/haversineMethod.py` (Earth radius 6371 km),
over the abstracted trigonometric operations. -/
def haversine (ops : TrigOps) (coord1 coord2 : ℚ × ℚ) : ℚ :=
  let phi1 := ops.radians coord1.1
  let phi2 := ops.radians coord2.1
  let dphi := ops.radians (coord2.1 - coord1.1)
  let dlambda := ops.radians (coord2.2 - coord1.2)
  let a := ops.sin (dphi / 2) ^ 2
    + ops.cos phi1 * ops.cos phi2 * ops.sin (dlambda / 2) ^ 2
  6371 * (2 * ops.atan2 (ops.sqrt a) (ops.sqrt (1 - a)))

/-- The mode loop of `get_best_travel_time`: `best_time` starts at
`float('inf')` (modelled `none`), each mode computes
`time = distance / speed * 60` and wins on `time < best_time`; Python
raises `ZeroDivisionError` on a zero speed (outer `none`). -/
def bestLoop (distance : ℚ) :
    List (String × ℚ) → Option (ℚ × String) → Option (Option (ℚ × String))
  | [], best => some best
  | (mode, speed) :: rest, best =>
    if speed = 0 then none
    else
      bestLoop distance rest
        (match best with
         | none => some (distance / speed * 60, mode)
         | some (bt, bm) =>
           if distance / speed * 60 < bt then some (distance / speed * 60, mode)
           else some (bt, bm))

/-- Function `get_best_travel_time` from `helpers/haversineMethod.py`: best travel
minutes and mode over the speed table, in table iteration order. -/
def get_best_travel_time (ops : TrigOps) (user_loc candidate_loc : ℚ × ℚ)
    (speeds : List (String × ℚ)) : Option (Option (ℚ × String)) :=
  bestLoop (haversine ops user_loc candidate_loc) speeds none

/-- A concrete rational stand-in for the `math` functions, satisfying the
identities `radians 0 = 0`, `sin 0 = 0`, `sqrt 0 = 0`, `sqrt 1 = 1` and
`atan2 0 1 = 0` that the real library functions satisfy exactly (also in
IEEE-754 arithmetic). -/
def ratTrig : TrigOps :=
  ⟨fun x => x, fun x => x, fun _ => 1, fun x => x, fun x _ => x⟩

unseal Rat.add Rat.sub Rat.mul Rat.inv

theorem appendUpTo_eq_take (limit : Nat) :
    ∀ (cs conns : List Connection), conns.length < limit →
      appendUpTo limit conns cs = conns ++ cs.take (limit - conns.length) := by
  intro cs
  induction cs with
  | nil => intro conns _; simp [appendUpTo]
  | cons c cs ih =>
    intro conns h
    rw [appendUpTo]
    by_cases hl : limit ≤ (conns ++ [c]).length
    · rw [if_pos hl]
      have hlen : limit - conns.length = 1 := by
        simp only [List.length_append, List.length_singleton] at hl
        omega
      rw [hlen, List.take_succ_cons, List.take_zero]
    · rw [if_neg hl]
      rw [ih (conns ++ [c]) (by simp at hl ⊢; omega)]
      have hk : limit - conns.length = (limit - (conns ++ [c]).length) + 1 := by
        simp only [List.length_append, List.length_singleton] at hl ⊢
        omega
      rw [hk, List.take_succ_cons, List.append_assoc, List.singleton_append]

theorem outerLoop_eq_take (limit : Nat) (step : Flight → List Connection) :
    ∀ (fs : List Flight) (conns : List Connection), conns.length ≤ limit →
      outerLoop limit step fs conns
        = conns ++ (fs.flatMap step).take (limit - conns.length) := by
  intro fs
  induction fs with
  | nil => intro conns _; simp [outerLoop]
  | cons f fs ih =>
    intro conns h
    simp only [outerLoop]
    by_cases hl : limit ≤ conns.length
    · have : limit - conns.length = 0 := by omega
      simp [hl, this]
    · simp only [hl, if_false]
      rw [appendUpTo_eq_take limit (step f) conns (by omega)]
      rw [ih _ (by simp [List.length_take]; omega)]
      rw [List.flatMap_cons, List.take_append_eq_append_take, List.append_assoc]
      congr 2
      simp only [List.length_append, List.length_take]
      congr 1
      omega

/-- Lemma: `get_connecting_flights` equals the first `limit` elements of the
unbounded valid-connection stream. -/
theorem get_connecting_flights_eq_take (flights : List Flight)
    (origin dest : String) (minConn maxConn : Int) (limit : Nat)
    (maxEmissions : ℚ) (maxJourney : Option Int) :
    get_connecting_flights flights origin dest minConn maxConn limit
        maxEmissions maxJourney
      = (validConnections flights origin dest minConn maxConn maxEmissions
          maxJourney).take limit := by
  unfold get_connecting_flights validConnections
  rw [outerLoop_eq_take limit _ _ [] (by simp)]
  simp

theorem buildConnection_some {maxJourney : Option Int} {maxEmissions : ℚ}
    {first second : Flight} {c : Connection}
    (h : buildConnection maxJourney maxEmissions first second = some c) :
    c.first = first ∧ c.second = second
      ∧ c.total_co2_emissions = first.co2 + second.co2
      ∧ c.total_co2_emissions ≤ maxEmissions
      ∧ c.journey_time_minutes = wrapDay (second.arrtim - first.deptim)
      ∧ ∀ mj, maxJourney = some mj → c.journey_time_minutes ≤ mj := by
  unfold buildConnection at h
  by_cases hco2 : maxEmissions < first.co2 + second.co2
  · rw [if_pos hco2] at h
    exact absurd h (by simp)
  · rw [if_neg hco2] at h
    by_cases hex : exceedsMaxJourney maxJourney
        (wrapDay (second.arrtim - first.deptim)) = true
    · rw [if_pos hex] at h
      exact absurd h (by simp)
    · rw [if_neg hex] at h
      obtain rfl := Option.some.inj h
      refine ⟨rfl, rfl, rfl, le_of_not_lt hco2, rfl, ?_⟩
      intro mj hmj
      subst hmj
      simp only [exceedsMaxJourney, decide_eq_true_eq, not_lt] at hex
      exact hex

theorem mem_validSeconds {minConn maxConn : Int} {maxEmissions : ℚ}
    {maxJourney : Option Int} {seconds : List Flight} {first : Flight}
    {c : Connection}
    (h : c ∈ validSeconds minConn maxConn maxEmissions maxJourney seconds first) :
    c.first = first ∧ c.second ∈ seconds
      ∧ c.second.depapt = first.arrapt
      ∧ first.arrtim + minConn ≤ c.second.deptim
      ∧ c.second.deptim ≤ first.arrtim + maxConn
      ∧ c.total_co2_emissions = first.co2 + c.second.co2
      ∧ c.total_co2_emissions ≤ maxEmissions
      ∧ c.journey_time_minutes = wrapDay (c.second.arrtim - first.deptim)
      ∧ ∀ mj, maxJourney = some mj → c.journey_time_minutes ≤ mj := by
  unfold validSeconds at h
  obtain ⟨s, hs, hbuild⟩ := List.mem_filterMap.mp h
  obtain ⟨hsmem, hpred⟩ := List.mem_filter.mp hs
  obtain ⟨hf, hsec, htot, hle, hjt, hmj⟩ := buildConnection_some hbuild
  simp only [Bool.and_eq_true, beq_iff_eq, decide_eq_true_eq] at hpred
  subst hsec
  exact ⟨hf, hsmem, hpred.1.1, hpred.1.2, hpred.2, htot, hle, hjt, hmj⟩

theorem mem_get_connecting_flights {flights : List Flight}
    {origin dest : String} {minConn maxConn : Int} {limit : Nat}
    {maxEmissions : ℚ} {maxJourney : Option Int} {c : Connection}
    (h : c ∈ get_connecting_flights flights origin dest minConn maxConn limit
            maxEmissions maxJourney) :
    c.second.depapt = c.first.arrapt
      ∧ minConn ≤ c.second.deptim - c.first.arrtim
      ∧ c.second.deptim - c.first.arrtim ≤ maxConn
      ∧ c.total_co2_emissions = c.first.co2 + c.second.co2
      ∧ c.total_co2_emissions ≤ maxEmissions
      ∧ c.journey_time_minutes = wrapDay (c.second.arrtim - c.first.deptim)
      ∧ ∀ mj, maxJourney = some mj → c.journey_time_minutes ≤ mj := by
  rw [get_connecting_flights_eq_take] at h
  have h2 := List.take_subset limit _ h
  unfold validConnections at h2
  obtain ⟨f, _, hvs⟩ := List.mem_flatMap.mp h2
  obtain ⟨hf, _, hdep, hmin, hmax, htot, hle, hjt, hmj⟩ := mem_validSeconds hvs
  subst hf
  exact ⟨hdep, by omega, by omega, htot, hle, hjt, hmj⟩

/-- C1: every connection returned by the connection finder satisfies the
connection window (`min_connection_mins ≤ second DEPTIM - first ARRTIM ≤
max_connection_mins`), the total-emissions bound, and, when
`max_journey_time` is set, the journey-time bound. -/
theorem connection_search_respects_bounds {flights : List Flight}
    {origin dest : String} {minConn maxConn : Int} {limit : Nat}
    {maxEmissions : ℚ} {maxJourney : Option Int} {c : Connection}
    (h : c ∈ get_connecting_flights flights origin dest minConn maxConn limit
            maxEmissions maxJourney) :
    minConn ≤ c.second.deptim - c.first.arrtim
      ∧ c.second.deptim - c.first.arrtim ≤ maxConn
      ∧ c.total_co2_emissions ≤ maxEmissions
      ∧ ∀ mj, maxJourney = some mj → c.journey_time_minutes ≤ mj := by
  obtain ⟨_, hmin, hmax, _, hle, _, hmj⟩ := mem_get_connecting_flights h
  exact ⟨hmin, hmax, hle, hmj⟩

/-- Witness for C1 on a concrete two-leg schedule. -/
theorem connection_search_respects_bounds_witness :
    (40:Int) ≤ connJfkLax.second.deptim - connJfkLax.first.arrtim
      ∧ connJfkLax.second.deptim - connJfkLax.first.arrtim ≤ 300
      ∧ connJfkLax.total_co2_emissions ≤ 300
      ∧ ∀ mj, (some 400 : Option Int) = some mj →
          connJfkLax.journey_time_minutes ≤ mj :=
  @connection_search_respects_bounds [legJfkOrd, legOrdLax] "JFK" "LAX"
    40 300 10 300 (some 400) connJfkLax (by decide)

/-- C5: the connection finder returns at most `limit` connections, namely
exactly the first `limit` valid connections in iteration order (outer loop
over first legs, inner loop over matching second legs) — an early exit,
not a global top-K. -/
theorem connection_finder_truncates_at_limit (flights : List Flight)
    (origin dest : String) (minConn maxConn : Int) (limit : Nat)
    (maxEmissions : ℚ) (maxJourney : Option Int) :
    (get_connecting_flights flights origin dest minConn maxConn limit
        maxEmissions maxJourney).length ≤ limit
      ∧ get_connecting_flights flights origin dest minConn maxConn limit
          maxEmissions maxJourney
        = (validConnections flights origin dest minConn maxConn maxEmissions
            maxJourney).take limit := by
  refine ⟨?_, get_connecting_flights_eq_take _ _ _ _ _ _ _ _⟩
  rw [get_connecting_flights_eq_take]
  exact List.length_take_le _ _

/-- C4 (amended): the journey time of every returned connection is the raw
difference `second ARRTIM - first DEPTIM` with 1440 minutes added exactly
once when negative (and hence lies in `[0, 1440)` whenever both clock
values do); the connection-window filter, however, compares the raw
difference `second DEPTIM - first ARRTIM` with the window bounds and never
applies a day-wrap to the wait time. -/
theorem connection_journey_wraps_once_wait_raw {flights : List Flight}
    {origin dest : String} {minConn maxConn : Int} {limit : Nat}
    {maxEmissions : ℚ} {maxJourney : Option Int} {c : Connection}
    (h : c ∈ get_connecting_flights flights origin dest minConn maxConn limit
            maxEmissions maxJourney) :
    c.journey_time_minutes = wrapDay (c.second.arrtim - c.first.deptim)
      ∧ minConn ≤ c.second.deptim - c.first.arrtim
      ∧ c.second.deptim - c.first.arrtim ≤ maxConn
      ∧ (0 ≤ c.first.deptim → c.first.deptim < 1440 →
         0 ≤ c.second.arrtim → c.second.arrtim < 1440 →
         0 ≤ c.journey_time_minutes ∧ c.journey_time_minutes < 1440) := by
  obtain ⟨_, hmin, hmax, _, _, hjt, _⟩ := mem_get_connecting_flights h
  refine ⟨hjt, hmin, hmax, ?_⟩
  intro h1 h2 h3 h4
  rw [hjt]
  unfold wrapDay
  split <;> omega

/-- Witness for the amended C4 on a concrete overnight itinerary
(departing 23:00, landing next day: journey time wraps once to 460). -/
theorem connection_journey_wraps_once_wait_raw_witness :
    connDelLhr.journey_time_minutes
        = wrapDay (connDelLhr.second.arrtim - connDelLhr.first.deptim)
      ∧ (40:Int) ≤ connDelLhr.second.deptim - connDelLhr.first.arrtim
      ∧ connDelLhr.second.deptim - connDelLhr.first.arrtim ≤ 300
      ∧ (0 ≤ connDelLhr.first.deptim → connDelLhr.first.deptim < 1440 →
         0 ≤ connDelLhr.second.arrtim → connDelLhr.second.arrtim < 1440 →
         0 ≤ connDelLhr.journey_time_minutes
           ∧ connDelLhr.journey_time_minutes < 1440) :=
  @connection_journey_wraps_once_wait_raw [legDelDxb, legDxbLhr] "DEL" "LHR"
    40 300 10 300 none connDelLhr (by decide)

theorem foldl_min_le_init : ∀ (xs : List ℚ) (c : ℚ), xs.foldl min c ≤ c := by
  intro xs
  induction xs with
  | nil => intro c; exact le_refl c
  | cons b bs ih =>
    intro c
    exact le_trans (ih (min c b)) (min_le_left c b)

theorem foldl_min_le_mem : ∀ (xs : List ℚ) (c x : ℚ), x ∈ xs →
    xs.foldl min c ≤ x := by
  intro xs
  induction xs with
  | nil => intro c x hx; cases hx
  | cons b bs ih =>
    intro c x hx
    rcases List.mem_cons.mp hx with rfl | hx
    · exact le_trans (foldl_min_le_init bs (min c x)) (min_le_right c x)
    · exact ih (min c b) x hx

theorem listMin_le {xs : List ℚ} {x : ℚ} (hx : x ∈ xs) : listMin xs ≤ x := by
  cases xs with
  | nil => cases hx
  | cons a as =>
    rcases List.mem_cons.mp hx with rfl | hx
    · exact foldl_min_le_init as x
    · exact foldl_min_le_mem as a x hx

theorem foldl_max_init_le : ∀ (xs : List ℚ) (c : ℚ), c ≤ xs.foldl max c := by
  intro xs
  induction xs with
  | nil => intro c; exact le_refl c
  | cons b bs ih =>
    intro c
    exact le_trans (le_max_left c b) (ih (max c b))

theorem foldl_max_mem_le : ∀ (xs : List ℚ) (c x : ℚ), x ∈ xs →
    x ≤ xs.foldl max c := by
  intro xs
  induction xs with
  | nil => intro c x hx; cases hx
  | cons b bs ih =>
    intro c x hx
    rcases List.mem_cons.mp hx with rfl | hx
    · exact le_trans (le_max_right c x) (foldl_max_init_le bs (max c x))
    · exact ih (max c b) x hx

theorem le_listMax {xs : List ℚ} {x : ℚ} (hx : x ∈ xs) : x ≤ listMax xs := by
  cases xs with
  | nil => cases hx
  | cons a as =>
    rcases List.mem_cons.mp hx with rfl | hx
    · exact foldl_max_init_le as x
    · exact foldl_max_mem_le as a x hx

theorem normalizeColumn_mem_bounds (nrows : Nat) (col : Column) :
    ∀ v ∈ normalizeColumn nrows col, ∀ x : ℚ, v = some x →
      0 ≤ x ∧ x ≤ 1 := by
  intro v hv x hx
  subst hx
  cases col with
  | absent =>
    simp only [normalizeColumn] at hv
    have := List.eq_of_mem_replicate hv
    simp only [Option.some.injEq] at this
    subst this
    exact ⟨le_refl 0, by norm_num⟩
  | present vals =>
    simp only [normalizeColumn] at hv
    split at hv
    · split at hv
      · have := List.eq_of_mem_replicate hv
        simp only [Option.some.injEq] at this
        subst this
        exact ⟨le_refl 0, by norm_num⟩
      · rename_i hrange
        obtain ⟨w, hw, hwx⟩ := List.mem_map.mp hv
        cases w with
        | none => simp at hwx
        | some y =>
          simp only [Option.map_some', Option.some.injEq] at hwx
          have hy : y ∈ vals.filterMap id := by
            exact List.mem_filterMap.mpr ⟨some y, hw, rfl⟩
          have hmn : listMin (vals.filterMap id) ≤ y := listMin_le hy
          have hmx : y ≤ listMax (vals.filterMap id) := le_listMax hy
          have hpos : 0 < listMax (vals.filterMap id)
              - listMin (vals.filterMap id) := by
            rcases lt_or_eq_of_le (sub_nonneg.mpr (le_trans hmn hmx)) with h | h
            · exact h
            · exact absurd h.symm hrange
          subst hwx
          constructor
          · exact div_nonneg (sub_nonneg.mpr hmn) (le_of_lt hpos)
          · rw [div_le_one hpos]
            exact sub_le_sub_right hmx _
    · have := List.eq_of_mem_replicate hv
      simp only [Option.some.injEq] at this
      subst this
      exact ⟨le_refl 0, by norm_num⟩

theorem normalizeColumn_const (nrows : Nat) (vals : List (Option ℚ))
    (h : listMax (vals.filterMap id) = listMin (vals.filterMap id)) :
    normalizeColumn nrows (Column.present vals)
      = List.replicate vals.length (some 0) := by
  simp only [normalizeColumn]
  by_cases hg : 0 < vals.length ∧ ¬ vals.all Option.isNone = true
  · rw [if_pos hg, if_pos (sub_eq_zero_of_eq h)]
  · rw [if_neg hg]

theorem normalizeColumn_formula (nrows : Nat) (vals : List (Option ℚ))
    (h : listMax (vals.filterMap id) ≠ listMin (vals.filterMap id)) :
    normalizeColumn nrows (Column.present vals)
      = vals.map fun v => v.map fun x =>
          (x - listMin (vals.filterMap id))
            / (listMax (vals.filterMap id) - listMin (vals.filterMap id)) := by
  have hne : vals.filterMap id ≠ [] := by
    intro hnil
    rw [hnil] at h
    exact h rfl
  simp only [normalizeColumn]
  rw [if_pos, if_neg (fun h0 => h (sub_eq_zero.mp h0))]
  constructor
  · cases vals with
    | nil => exact absurd rfl hne
    | cons a as => simp
  · intro hall
    apply hne
    rw [List.filterMap_eq_nil_iff]
    intro a ha
    have := List.all_eq_true.mp hall a ha
    exact Option.isNone_iff_eq_none.mp this

/-- C2 counterexample: on the three-row table whose `total_co2` column is
`[0, 1, null]` (and constant `max_travel_hours`), the null row's
normalized CO2 value is null (NaN in the code), so not every normalized
value lies in `[0, 1]`. -/
theorem normalize_partial_null_counterexample :
    (normalize_results (Column.present [some 0, some 1, none])
        (Column.present [some 0, some 0, some 0]) 3).1
      = [some 0, some 1, none]
    ∧ ¬ (∀ v ∈ (normalize_results (Column.present [some 0, some 1, none])
            (Column.present [some 0, some 0, some 0]) 3).1,
          ∃ x : ℚ, v = some x ∧ 0 ≤ x ∧ x ≤ 1) := by
  constructor
  · decide
  · intro hall
    have hmem : (none : Option ℚ)
        ∈ (normalize_results (Column.present [some 0, some 1, none])
            (Column.present [some 0, some 0, some 0]) 3).1 := by decide
    obtain ⟨x, hx, _⟩ := hall none hmem
    cases hx

/-- C2 (amended): `normalize_results` normalizes the two metric columns
independently; every normalized value of a non-null cell lies in `[0, 1]`;
when the non-null values have `max = min` (including a single-row or
all-null or empty column) every row gets exactly `0`; an absent column
gives `0` for every row; but in a column with `max ≠ min`, a null cell
yields a null (NaN) normalized value rather than a value in `[0, 1]`. -/
theorem normalize_results_in_unit_interval (co2col timecol : Column)
    (nrows : Nat) :
    normalize_results co2col timecol nrows
        = (normalizeColumn nrows co2col, normalizeColumn nrows timecol)
      ∧ (∀ v ∈ (normalize_results co2col timecol nrows).1, ∀ x : ℚ,
           v = some x → 0 ≤ x ∧ x ≤ 1)
      ∧ (∀ v ∈ (normalize_results co2col timecol nrows).2, ∀ x : ℚ,
           v = some x → 0 ≤ x ∧ x ≤ 1)
      ∧ (∀ vals : List (Option ℚ),
           listMax (vals.filterMap id) = listMin (vals.filterMap id) →
           normalizeColumn nrows (Column.present vals)
             = List.replicate vals.length (some 0))
      ∧ normalizeColumn nrows Column.absent = List.replicate nrows (some 0)
      ∧ (∀ vals : List (Option ℚ),
           listMax (vals.filterMap id) ≠ listMin (vals.filterMap id) →
           normalizeColumn nrows (Column.present vals)
             = vals.map fun v => v.map fun x =>
                 (x - listMin (vals.filterMap id))
                   / (listMax (vals.filterMap id) - listMin (vals.filterMap id))) :=
  ⟨rfl, normalizeColumn_mem_bounds nrows co2col,
    normalizeColumn_mem_bounds nrows timecol,
    fun vals h => normalizeColumn_const nrows vals h, rfl,
    fun vals h => normalizeColumn_formula nrows vals h⟩

/-- Witness for the amended C2: a concrete uniform column (max = min)
normalizes to all-zero rows, and a concrete two-valued column stays within
`[0, 1]` on its non-null cells. -/
theorem normalize_results_in_unit_interval_witness :
    normalizeColumn 3 (Column.present [some 5, some 5, none])
      = List.replicate 3 (some 0) :=
  (normalize_results_in_unit_interval Column.absent Column.absent 3).2.2.2.1
    [some 5, some 5, none] (by decide)

/-- Counterexample to C4 as stated: with a first leg arriving 23:50 and a
second leg departing 00:40 next day (true wait 50 minutes, raw difference
-1390), the code's window filter uses the raw negative difference and
rejects the connection, while the spec-modelled variant that adds 1440 to
a negative wait before filtering accepts it.  So a negative wait time is
not wrapped before being used for filtering. -/
theorem connection_wait_not_wrapped_counterexample :
    get_connecting_flights [legRedeyeOut, legRedeyeIn] "AAA" "CCC"
        40 300 10 300 none = []
      ∧ get_connecting_flights_wrapwait [legRedeyeOut, legRedeyeIn] "AAA" "CCC"
          40 300 10 300 none
        = [⟨legRedeyeOut, legRedeyeIn, 2, 160⟩] := by decide

theorem onEdgeCheck_degenerate (x y a b : ℚ) : onEdgeCheck x y a b a b = false := by
  unfold onEdgeCheck
  split
  · rw [if_neg (fun h : b ≠ b => h rfl)]
  · rfl

theorem crossingUpdate_degenerate (x y a b : ℚ) (inside : Bool) :
    crossingUpdate x y a b a b inside = inside := by
  unfold crossingUpdate
  rw [if_neg]
  intro h
  obtain ⟨h1, h2, _⟩ := h
  rw [min_self] at h1
  rw [max_self] at h2
  exact absurd h2 (not_le.mpr h1)

theorem point_in_polygon_singleton (p v : ℚ × ℚ) :
    point_in_polygon p [v] = some (nearVertex p.1 p.2 v.1 v.2) := by
  cases hnear : nearVertex p.1 p.2 v.1 v.2 with
  | true => simp [point_in_polygon, hnear]
  | false =>
    simp [point_in_polygon, hnear, List.rotate, pipLoop,
      onEdgeCheck_degenerate, crossingUpdate_degenerate]

/-- C6 evaluation at the failing input: the point `(1/2, 0)` lies exactly
on the horizontal edge from `(0,0)` to `(1,0)` of the unit square, yet
`point_in_polygon` returns `False`: the edge-coincidence branch skips
horizontal edges (`p1y == p2y`) and the crossing count leaves the point
outside, contradicting the function's own boundary-inclusive contract. -/
theorem point_on_horizontal_edge_reported_outside :
    point_in_polygon ((1:ℚ)/2, 0) [(0, 0), (1, 0), (1, 1), (0, 1)]
      = some false := by decide

/-- C8 counterexample: with a 0-point polygon, `point_in_polygon` raises
`IndexError` at `polygon_vertices[0]` (modelled `none`), and therefore
`filter_candidates_by_polygon` on any non-empty candidate mapping raises
too, instead of completing with an empty filter result. -/
theorem empty_polygon_raises_counterexample :
    point_in_polygon ((0:ℚ), 0) [] = none
    ∧ filter_candidates_by_polygon [("LON", ⟨"London", "UK", 51, 0⟩)] [] none
        = none := by decide

/-- C8 (amended): a 1-point polygon never raises: `point_in_polygon`
returns `True` exactly when the point is within tolerance of that vertex
on both coordinates and `False` otherwise; a 0-point polygon makes
`point_in_polygon` raise `IndexError`, so `filter_candidates_by_polygon`
raises for every non-empty candidate mapping and returns the empty
mapping only when the candidate mapping is itself empty. -/
theorem degenerate_polygon_semantics
    (p v : ℚ × ℚ) (kv : String × City) (cands : List (String × City)) :
    point_in_polygon p [v] = some (nearVertex p.1 p.2 v.1 v.2)
    ∧ point_in_polygon p [] = none
    ∧ (cands ≠ [] → filter_candidates_by_polygon cands [] none = none)
    ∧ filter_candidates_by_polygon [] [] none = some []
    ∧ filter_candidates_by_polygon (kv :: cands) [] none = none := by
  refine ⟨point_in_polygon_singleton p v, rfl, ?_, rfl, rfl⟩
  intro h
  cases cands with
  | nil => exact absurd rfl h
  | cons kv2 rest => rfl

/-- Witness for the amended C8 at a concrete point, vertex and candidate
list. -/
theorem degenerate_polygon_semantics_witness :
    filter_candidates_by_polygon [("LON", ⟨"London", "UK", 51, 0⟩)] [] none
      = none :=
  (degenerate_polygon_semantics (0, 0) (0, 0) ("LON", ⟨"London", "UK", 51, 0⟩)
    [("LON", ⟨"London", "UK", 51, 0⟩)]).2.2.1 (by decide)

/-- C7: `buildPolygon` (`calculate_bounding_polygon`) is total — for any
hull oracle it returns a value: the input points verbatim when there are
fewer than three (or exactly three), and the original point list in input
order whenever the convex-hull computation fails. -/
theorem bounding_polygon_total_fallback
    (hull : List (ℚ × ℚ) → Option (List (ℚ × ℚ))) (coords : List (ℚ × ℚ)) :
    (coords.length < 3 → calculate_bounding_polygon hull coords = coords)
    ∧ (coords.length = 3 → calculate_bounding_polygon hull coords = coords)
    ∧ (hull coords = none → calculate_bounding_polygon hull coords = coords) := by
  refine ⟨?_, ?_, ?_⟩
  · intro h
    unfold calculate_bounding_polygon
    rw [if_pos h]
  · intro h
    unfold calculate_bounding_polygon
    rw [if_neg (by omega), if_pos h]
  · intro h
    unfold calculate_bounding_polygon
    by_cases h1 : coords.length < 3
    · rw [if_pos h1]
    · rw [if_neg h1]
      by_cases h2 : coords.length = 3
      · rw [if_pos h2]
      · rw [if_neg h2, h]

/-- Witness for C7: three collinear points with an always-failing hull
oracle come back verbatim. -/
theorem bounding_polygon_total_fallback_witness :
    calculate_bounding_polygon (fun _ => none) [(0, 0), (1, 1), (2, 2)]
      = [(0, 0), (1, 1), (2, 2)] :=
  (bounding_polygon_total_fallback (fun _ => none)
    [(0, 0), (1, 1), (2, 2)]).2.1 (by decide)

theorem pipFilter_sublist (poly : List (ℚ × ℚ)) :
    ∀ (l res : List (String × City)), pipFilter poly l = some res →
      res.Sublist l := by
  intro l
  induction l with
  | nil =>
    intro res h
    simp only [pipFilter, Option.some.injEq] at h
    subst h
    exact List.Sublist.refl []
  | cons kv rest ih =>
    intro res h
    cases hp : point_in_polygon (kv.2.lat, kv.2.lon) poly with
    | none =>
      simp only [pipFilter, hp] at h
      simp at h
    | some b =>
      simp only [pipFilter, hp] at h
      cases hr : pipFilter poly rest with
      | none => rw [hr] at h; simp at h
      | some l2 =>
        rw [hr] at h
        obtain rfl := Option.some.inj h
        cases b with
        | true => exact List.Sublist.cons₂ kv (ih l2 hr)
        | false => exact List.Sublist.cons kv (ih l2 hr)

/-- C10: whenever `filter_candidates_by_polygon` completes, its result is
a sublist of the combined candidate mapping `all_cities`: the same
`(code, record)` pairs in the same order with entries only removed —
nothing is added, duplicated or modified. -/
theorem filter_candidates_only_removes (cands : List (String × City))
    (poly : List (ℚ × ℚ)) (custom : Option (List (String × City)))
    (res : List (String × City))
    (h : filter_candidates_by_polygon cands poly custom = some res) :
    res.Sublist (allCities cands custom) :=
  pipFilter_sublist poly (allCities cands custom) res h

/-- Witness for C10: a two-city mapping filtered through a triangle keeps
exactly the inner city, a sublist of the input mapping. -/
theorem filter_candidates_only_removes_witness :
    filter_candidates_by_polygon [("INN", cityInside), ("OUT", cityOutside)]
        [(0, 0), (2, 0), (0, 2)] none
      = some [("INN", cityInside)]
    ∧ [("INN", cityInside)].Sublist
        (allCities [("INN", cityInside), ("OUT", cityOutside)] none) :=
  ⟨by decide,
    filter_candidates_only_removes [("INN", cityInside), ("OUT", cityOutside)]
      [(0, 0), (2, 0), (0, 2)] none [("INN", cityInside)] (by decide)⟩

theorem haversine_self (ops : TrigOps) (h1 : ops.radians 0 = 0)
    (h2 : ops.sin 0 = 0) (h3 : ops.sqrt 0 = 0) (h4 : ops.sqrt 1 = 1)
    (h5 : ops.atan2 0 1 = 0) (a : ℚ × ℚ) : haversine ops a a = 0 := by
  simp only [haversine, sub_self, h1, zero_div, h2]
  norm_num
  rw [h3, h4]
  exact h5

theorem bestLoop_zero_const (m : String) :
    ∀ (speeds : List (String × ℚ)), (∀ ms ∈ speeds, ms.2 ≠ 0) →
      bestLoop 0 speeds (some (0, m)) = some (some (0, m)) := by
  intro speeds
  induction speeds with
  | nil => intro _; rfl
  | cons ms rest ih =>
    intro hz
    obtain ⟨mode, speed⟩ := ms
    have hs : speed ≠ 0 := hz (mode, speed) (List.mem_cons_self _ _)
    rw [bestLoop, if_neg hs]
    have ht : (0:ℚ) / speed * 60 = 0 := by
      rw [zero_div, zero_mul]
    rw [ht]
    rw [if_neg (lt_irrefl 0)]
    exact ih fun x hx => hz x (List.mem_cons_of_mem _ hx)

/-- C9 (amended): `haversine(a, a) = 0` for every coordinate pair, and for
every non-empty speed table whose speeds are all nonzero,
`get_best_travel_time(a, a, speeds)` returns travel time `0` with some
mode name; a zero speed instead raises `ZeroDivisionError`. -/
theorem haversine_refl_and_best_time (ops : TrigOps) (h1 : ops.radians 0 = 0)
    (h2 : ops.sin 0 = 0) (h3 : ops.sqrt 0 = 0) (h4 : ops.sqrt 1 = 1)
    (h5 : ops.atan2 0 1 = 0) (a : ℚ × ℚ) (speeds : List (String × ℚ))
    (hne : speeds ≠ []) (hz : ∀ ms ∈ speeds, ms.2 ≠ 0) :
    haversine ops a a = 0
    ∧ ∃ mode, get_best_travel_time ops a a speeds = some (some (0, mode)) := by
  have hh := haversine_self ops h1 h2 h3 h4 h5 a
  refine ⟨hh, ?_⟩
  cases speeds with
  | nil => exact absurd rfl hne
  | cons ms rest =>
    obtain ⟨mode, speed⟩ := ms
    refine ⟨mode, ?_⟩
    unfold get_best_travel_time
    rw [hh]
    have hs : speed ≠ 0 := hz (mode, speed) (List.mem_cons_self _ _)
    rw [bestLoop, if_neg hs]
    have ht : (0:ℚ) / speed * 60 = 0 := by
      rw [zero_div, zero_mul]
    rw [ht]
    exact bestLoop_zero_const mode rest fun x hx => hz x (List.mem_cons_of_mem _ hx)

/-- Witness for the amended C9 on concrete coordinates and the two-mode
speed table. -/
theorem haversine_refl_and_best_time_witness :
    haversine ratTrig (10, 20) (10, 20) = 0
    ∧ ∃ mode, get_best_travel_time ratTrig (10, 20) (10, 20)
        [("walking", 5), ("flying", 800)] = some (some (0, mode)) :=
  haversine_refl_and_best_time ratTrig rfl rfl rfl rfl rfl (10, 20)
    [("walking", 5), ("flying", 800)] (by decide) (by decide)

/-- C9 counterexample: a speed table containing a zero speed makes
`get_best_travel_time` raise `ZeroDivisionError` (`none`) even for
coinciding endpoints, so it does not return `(0, mode)` for every
non-empty speed table and the estimator does have an error condition —
while `haversine` itself still returns 0 there. -/
theorem zero_speed_raises_counterexample :
    get_best_travel_time ratTrig (0, 0) (0, 0) [("walking", 0)] = none
    ∧ haversine ratTrig (0, 0) (0, 0) = 0 := by decide
